import Mathlib

set_option maxRecDepth 8000

/-
  Verification development for the LEO mission-planning repository.

  The embedding covers the two algorithmic parts of the code base:

  * `preprocess_population.py` — `convert_density_to_count`: the numeric core
    that turns a (land-masked) density grid into an absolute population-count
    grid, normalised to a target world population.  Python-float arithmetic is
    modelled at the value-class level by `PFloat` (an exact rational together
    with the special values nan / inf / -inf); a raised exception is modelled
    by `Except.error`, and `Except.ok` means the function runs to the point
    where `np.save` persists the output.

  * `app.py` — `get_population_estimate` (the interactive point query) and
    `get_coverage_score` (the orbital footprint sweep).  The affine raster
    transform is rectilinear (`b = d = 0`), matching the code's use of
    `transform.a` / `transform.e` only.  `math.cos (math.radians lat)` is
    abstracted as a parameter `cosFn`, and the geopy `great_circle` distance
    as a parameter `dist`, both external library collaborators.
-/

namespace LEO

/-- Value-class model of a Python float: an exact rational, or one of the
special values produced by degenerate arithmetic. -/
inductive PFloat where
  | finite (q : ℚ)
  | nan
  | inf
  | ninf
deriving DecidableEq, Repr

/-- Addition on `PFloat`, mirroring IEEE float addition at the value-class
level (`nan` absorbs; `inf + -inf = nan`). -/
def padd : PFloat → PFloat → PFloat
  | PFloat.nan, _ => PFloat.nan
  | _, PFloat.nan => PFloat.nan
  | PFloat.inf, PFloat.ninf => PFloat.nan
  | PFloat.ninf, PFloat.inf => PFloat.nan
  | PFloat.inf, _ => PFloat.inf
  | _, PFloat.inf => PFloat.inf
  | PFloat.ninf, _ => PFloat.ninf
  | _, PFloat.ninf => PFloat.ninf
  | PFloat.finite a, PFloat.finite b => PFloat.finite (a + b)

/-- Multiplication on `PFloat`, mirroring IEEE float multiplication at the
value-class level (`nan` absorbs; `inf * 0 = nan`). -/
def pmul : PFloat → PFloat → PFloat
  | PFloat.nan, _ => PFloat.nan
  | _, PFloat.nan => PFloat.nan
  | PFloat.finite a, PFloat.finite b => PFloat.finite (a * b)
  | PFloat.inf, PFloat.finite a =>
      if 0 < a then PFloat.inf else if a < 0 then PFloat.ninf else PFloat.nan
  | PFloat.finite a, PFloat.inf =>
      if 0 < a then PFloat.inf else if a < 0 then PFloat.ninf else PFloat.nan
  | PFloat.ninf, PFloat.finite a =>
      if 0 < a then PFloat.ninf else if a < 0 then PFloat.inf else PFloat.nan
  | PFloat.finite a, PFloat.ninf =>
      if 0 < a then PFloat.ninf else if a < 0 then PFloat.inf else PFloat.nan
  | PFloat.inf, PFloat.inf => PFloat.inf
  | PFloat.inf, PFloat.ninf => PFloat.ninf
  | PFloat.ninf, PFloat.inf => PFloat.ninf
  | PFloat.ninf, PFloat.ninf => PFloat.inf

/-- Message of the Python `ZeroDivisionError` raised by `x / 0.0`. -/
def zeroDivMsg : String := "ZeroDivisionError: float division by zero"

/-- Division on `PFloat`.  Python raises `ZeroDivisionError` whenever the
divisor is the float zero (this is the only arithmetic exception in the
modelled code); all other cases follow IEEE value-class rules. -/
def pdiv (x y : PFloat) : Except String PFloat :=
  match x, y with
  | _, PFloat.finite r =>
      if r = 0 then Except.error zeroDivMsg
      else
        match x with
        | PFloat.finite t => Except.ok (PFloat.finite (t / r))
        | PFloat.nan => Except.ok PFloat.nan
        | PFloat.inf =>
            Except.ok (if 0 < r then PFloat.inf else PFloat.ninf)
        | PFloat.ninf =>
            Except.ok (if 0 < r then PFloat.ninf else PFloat.inf)
  | PFloat.nan, _ => Except.ok PFloat.nan
  | _, PFloat.nan => Except.ok PFloat.nan
  | PFloat.finite _, PFloat.inf => Except.ok (PFloat.finite 0)
  | PFloat.finite _, PFloat.ninf => Except.ok (PFloat.finite 0)
  | _, _ => Except.ok PFloat.nan

/-- `np.nansum` treats a nan cell as 0; other values pass through. -/
def zeroNan : PFloat → PFloat
  | PFloat.nan => PFloat.finite 0
  | x => x

instance : Zero PFloat := ⟨PFloat.finite 0⟩

instance : Add PFloat := ⟨padd⟩

instance : AddCommMonoid PFloat where
  add_assoc a b c := by
    show padd (padd a b) c = padd a (padd b c)
    cases a <;> cases b <;> cases c <;> simp [padd] <;> ring
  zero_add a := by
    show padd (PFloat.finite 0) a = a
    cases a <;> simp [padd]
  add_zero a := by
    show padd a (PFloat.finite 0) = a
    cases a <;> simp [padd]
  add_comm a b := by
    show padd a b = padd b a
    cases a <;> cases b <;> simp [padd] <;> ring
  nsmul := nsmulRec

/-- Python `int(x)`: truncation toward zero. -/
def pyTrunc (q : ℚ) : ℤ := if 0 ≤ q then ⌊q⌋ else ⌈q⌉

/-- Python `round(x)` on a float: round half to even (banker's rounding). -/
def pyRound (q : ℚ) : ℤ :=
  if Int.fract q = 1 / 2 then
    if ⌊q⌋ % 2 = 0 then ⌊q⌋ else ⌊q⌋ + 1
  else round q

/- ------------------------------------------------------------------ -/
/- Offline conversion: `convert_density_to_count` numeric core.        -/
/- ------------------------------------------------------------------ -/

/-- Message of the `ValueError` raised for an unsupported density unit. -/
def unitsMsg : String := "density_units must be per_km2 or per_pixel"

/-- Result record of a successful conversion run: the persisted count grid
plus the metadata fields written alongside it. -/
structure ConvResult where
  counts : List (List PFloat)
  total_pop_raw : PFloat
  scale_factor : PFloat
  total_pop_adjusted : PFloat
deriving DecidableEq, Repr

/-- `pop_counts = filled * pixel_area_km2`: the per-row pixel area (shape
`(nrows, 1)`) is broadcast across each row of the filled density grid. -/
def popCountsPerKm2 (density : List (List PFloat)) (area : List PFloat) :
    List (List PFloat) :=
  List.zipWith (fun row ar => row.map (fun x => pmul x ar)) density area

/-- `total_pop_raw = float(np.sum(pop_counts))` for the per-km² unit branch. -/
def rawTotalP (density : List (List PFloat)) (area : List PFloat) : PFloat :=
  (popCountsPerKm2 density area).flatten.sum

/-- Normalisation step of `convert_density_to_count` on the computed
`pop_counts` grid: `total_pop_raw = np.sum(pop_counts)`,
`scale_factor = target_pop / total_pop_raw` (the division raises on a zero
raw total), `pop_counts *= scale_factor`, and the adjusted total. -/
def normalizeCounts (pc : List (List PFloat)) (target_pop : ℚ) :
    Except String ConvResult :=
  match pdiv (PFloat.finite target_pop) pc.flatten.sum with
  | Except.error m => Except.error m
  | Except.ok scale =>
      Except.ok ⟨pc.map (fun row => row.map (fun x => pmul x scale)),
        pc.flatten.sum, scale,
        (pc.map (fun row => row.map (fun x => pmul x scale))).flatten.sum⟩

/-- Numeric core of `convert_density_to_count` (preprocess_population.py,
lines 92-131): density → counts via the pixel-area broadcast (or unchanged
for per-pixel units, with a `ValueError` otherwise), then normalisation (a
raised exception is `Except.error`; `Except.ok` means `np.save` runs and the
array plus metadata are persisted). -/
def convert_density_to_count (density : List (List PFloat))
    (area : List PFloat) (density_units : String) (target_pop : ℚ) :
    Except String ConvResult :=
  if density_units = "per_km2" then
    normalizeCounts (popCountsPerKm2 density area) target_pop
  else if density_units = "per_pixel" then normalizeCounts density target_pop
  else Except.error unitsMsg

/-- Lift an exact rational grid to a `PFloat` grid (an input raster with no
special float values). -/
def liftRow (l : List ℚ) : List PFloat := l.map PFloat.finite

/-- Lift an exact rational 2-D grid to a `PFloat` grid. -/
def liftGrid (g : List (List ℚ)) : List (List PFloat) := g.map liftRow

/-- Exact per-km² population counts of a rational density grid. -/
def qPopCounts (density : List (List ℚ)) (area : List ℚ) : List (List ℚ) :=
  List.zipWith (fun row ar => row.map (fun x => x * ar)) density area

/-- Exact raw population total of a rational density grid under the per-km²
branch of the conversion. -/
def qRawTotal (density : List (List ℚ)) (area : List ℚ) : ℚ :=
  (qPopCounts density area).flatten.sum

/-- Projected-CRS pixel area (preprocess_population.py, lines 85-88):
`(abs xres * abs yres) / 1e6`, metres converted to km². -/
def pixelAreaProjQ (xres yres : ℚ) : ℚ := (|xres| * |yres|) / 1000000

/- ------------------------------------------------------------------ -/
/- Runtime queries: point estimate and orbital coverage sweep.         -/
/- ------------------------------------------------------------------ -/

/-- The rectilinear raster geometry used by `app.py`: the affine transform
coefficients `a` (pixel width, `transform.a`), `e` (row step, `transform.e`,
negative for a north-up raster), the origin `(cx, fy)` (`transform.c`,
`transform.f`), and the array shape. -/
structure GridGeom where
  a : ℚ
  e : ℚ
  cx : ℚ
  fy : ℚ
  nrows : ℕ
  ncols : ℕ
deriving DecidableEq, Repr

/-- Fractional column of a longitude under the inverse transform
(`~RASTER_TRANSFORM * (lon, lat)`, first component). -/
def geoToCol (g : GridGeom) (lon : ℚ) : ℚ := (lon - g.cx) / g.a

/-- Fractional row of a latitude under the inverse transform
(`~RASTER_TRANSFORM * (lon, lat)`, second component). -/
def geoToRow (g : GridGeom) (lat : ℚ) : ℚ := (lat - g.fy) / g.e

/-- Geographic center of pixel `(r, c)`:
`RASTER_TRANSFORM * (c + 0.5, r + 0.5)`, returned as a `(lat, lon)` pair,
the argument order in which `app.py` hands it to `great_circle`. -/
def pixCenter (g : GridGeom) (rc : ℤ × ℤ) : ℚ × ℚ :=
  (g.fy + g.e * ((rc.1 : ℚ) + 1 / 2), g.cx + g.a * ((rc.2 : ℚ) + 1 / 2))

/-- `km_per_deg_lon = 111.32 * math.cos(math.radians(lat))`; the library
cosine is the abstracted parameter `cosFn`. -/
def kmLonQ (cosFn : ℚ → ℚ) (lat : ℚ) : ℚ := (111.32 : ℚ) * cosFn lat

/-- Row half-extent in pixels:
`max(1, round(radius_km / (111.0 * abs(transform.e))))`. -/
def rowRadiusPx (radius e : ℚ) : ℤ :=
  max 1 (pyRound (radius / ((111 : ℚ) * |e|)))

/-- Column half-extent in pixels in the point query (app.py, lines 159-161):
the division is guarded by `km_per_deg_lon > 0`, otherwise `col_radius = 1`. -/
def colRadiusPx (cosFn : ℚ → ℚ) (lat radius a : ℚ) : ℤ :=
  if 0 < kmLonQ cosFn lat then max 1 (pyRound (radius / (kmLonQ cosFn lat * a)))
  else 1

/-- Clamped row index range `range(row_start, row_stop)` of the query box. -/
def boxRows (g : GridGeom) (crow rowRad : ℤ) : Finset ℤ :=
  Finset.Ico (max 0 (crow - rowRad)) (min (g.nrows : ℤ) (crow + rowRad + 1))

/-- Clamped column index range `range(col_start, col_stop)` of the query box. -/
def boxCols (g : GridGeom) (ccol colRad : ℤ) : Finset ℤ :=
  Finset.Ico (max 0 (ccol - colRad)) (min (g.ncols : ℤ) (ccol + colRad + 1))

/-- Effective stop index of a numpy basic slice `a[start:stop]` along an axis
of length `n`: a negative stop counts from the end of the axis (`n + stop`,
floored at 0), while a nonnegative stop is used as is (the stops produced by
the query are already at most `n` from the `min`). -/
def pySliceStop (n stop : ℤ) : ℤ := if stop < 0 then max 0 (n + stop) else stop

/-- Row indices actually selected by the numpy slice
`POPULATION_COUNT_DATA[row_start:row_stop, ...]` of the point query: unlike
the sweep's `range(row_start, row_stop)`, a negative `row_stop` wraps to
`nrows + row_stop`. -/
def sliceRows (g : GridGeom) (crow rowRad : ℤ) : Finset ℤ :=
  Finset.Ico (max 0 (crow - rowRad))
    (pySliceStop (g.nrows : ℤ) (min (g.nrows : ℤ) (crow + rowRad + 1)))

/-- Column indices actually selected by the numpy slice
`POPULATION_COUNT_DATA[..., col_start:col_stop]` of the point query. -/
def sliceCols (g : GridGeom) (ccol colRad : ℤ) : Finset ℤ :=
  Finset.Ico (max 0 (ccol - colRad))
    (pySliceStop (g.ncols : ℤ) (min (g.ncols : ℤ) (ccol + colRad + 1)))

/-- `get_population_estimate` (app.py, lines 143-180): convert `(lat, lon)` to
a pixel index, build the clamped axis-aligned box, slice the count array with
numpy semantics (a negative stop wraps to the end of the axis) and return
`int(np.nansum(area_slice))`.  The `except` clause that returns an estimate of
0 for any in-request exception (non-invertible transform, division by zero,
`int()` of a non-finite total) is modelled by the corresponding 0 branches. -/
def get_population_estimate (cosFn : ℚ → ℚ) (g : GridGeom)
    (grid : ℤ × ℤ → PFloat) (lat lon radius : ℚ) : ℤ :=
  if g.a = 0 ∨ g.e = 0 then 0
  else
    match (sliceRows g (pyTrunc (geoToRow g lat)) (rowRadiusPx radius g.e) ×ˢ
        sliceCols g (pyTrunc (geoToCol g lon)) (colRadiusPx cosFn lat radius g.a)).sum
        (fun rc => zeroNan (grid rc)) with
    | PFloat.finite q => pyTrunc q
    | _ => 0

/-- Error message for a non-invertible affine transform. -/
def invMsg : String := "TransformError: transform is not invertible"

/-- Error message for `int()` applied to a nan or infinite total. -/
def intCastMsg : String := "ValueError: cannot convert float to integer"

/-- Bounding box of one ground-track sample in the coverage sweep (app.py,
lines 202-214); unlike the point query the column division is unguarded. -/
def sampleBox (cosFn : ℚ → ℚ) (g : GridGeom) (radius : ℚ) (p : ℚ × ℚ) :
    Finset (ℤ × ℤ) :=
  boxRows g (pyTrunc (geoToRow g p.1)) (rowRadiusPx radius g.e) ×ˢ
    boxCols g (pyTrunc (geoToCol g p.2))
      (max 1 (pyRound (radius / (kmLonQ cosFn p.1 * g.a))))

/-- The pixels of one sample's box kept by the exact great-circle test
(app.py, lines 216-221); `dist` abstracts `geopy.distance.great_circle`
applied to `(lat, lon)` pairs. -/
def sampleCovered (dist : ℚ × ℚ → ℚ × ℚ → ℚ) (cosFn : ℚ → ℚ) (g : GridGeom)
    (radius : ℚ) (p : ℚ × ℚ) : Finset (ℤ × ℤ) :=
  (sampleBox cosFn g radius p).filter (fun rc => dist p (pixCenter g rc) ≤ radius)

/-- One sample of the sweep, with the exceptions Python can raise on it: a
non-invertible transform, or division by zero in the column radius. -/
def sampleCoveredE (dist : ℚ × ℚ → ℚ × ℚ → ℚ) (cosFn : ℚ → ℚ) (g : GridGeom)
    (radius : ℚ) (p : ℚ × ℚ) : Except String (Finset (ℤ × ℤ)) :=
  if g.a = 0 ∨ g.e = 0 then Except.error invMsg
  else if kmLonQ cosFn p.1 * g.a = 0 then Except.error zeroDivMsg
  else Except.ok (sampleCovered dist cosFn g radius p)

/-- `covered_pixels`: the loop over the ground track accumulating kept pixel
index pairs into one set (`covered_pixels.add((r, c))`). -/
def coverageSetsE (dist : ℚ × ℚ → ℚ × ℚ → ℚ) (cosFn : ℚ → ℚ) (g : GridGeom)
    (radius : ℚ) (track : List (ℚ × ℚ)) : Except String (Finset (ℤ × ℤ)) :=
  track.foldlM
    (fun acc p => (sampleCoveredE dist cosFn g radius p).map (fun s => acc ∪ s))
    ∅

/-- `total_population = sum(POPULATION_COUNT_DATA[r, c] for r, c in
covered_pixels)`: the plain (not nan-ignoring) sum over the final set. -/
def coverageTotalE (dist : ℚ × ℚ → ℚ × ℚ → ℚ) (cosFn : ℚ → ℚ) (g : GridGeom)
    (grid : ℤ × ℤ → PFloat) (radius : ℚ) (track : List (ℚ × ℚ)) :
    Except String PFloat :=
  (coverageSetsE dist cosFn g radius track).map (fun S => S.sum grid)

/-- `get_coverage_score` (app.py, lines 182-227): sweep the track, deduplicate
covered pixels, sum their counts and return `int(total_population)`; any
exception in the loop or in the final `int()` surfaces as an error response. -/
def get_coverage_score (dist : ℚ × ℚ → ℚ × ℚ → ℚ) (cosFn : ℚ → ℚ)
    (g : GridGeom) (grid : ℤ × ℤ → PFloat) (radius : ℚ)
    (track : List (ℚ × ℚ)) : Except String ℤ :=
  match coverageTotalE dist cosFn g grid radius track with
  | Except.error m => Except.error m
  | Except.ok (PFloat.finite q) => Except.ok (pyTrunc q)
  | Except.ok _ => Except.error intCastMsg

/- ------------------------------------------------------------------ -/
/- Geographic pixel-area model (real-valued, preprocess lines 72-82).  -/
/- ------------------------------------------------------------------ -/

/-- `km_per_deg_lon = 111.320 * np.cos(np.radians(lat))` for a row whose
pixel center sits at `latDeg` degrees of latitude. -/
noncomputable def kmPerDegLonRow (latDeg : ℝ) : ℝ :=
  111.320 * Real.cos (latDeg * Real.pi / 180)

/-- The ellipsoidal meridian-arc factor
`111.132 - 0.559 * sin(lat)^2 + 0.0012 * sin(lat)^4`, latitude in radians. -/
noncomputable def kmPerDegLatRow (latDeg : ℝ) : ℝ :=
  111.132 - 0.559 * Real.sin (latDeg * Real.pi / 180) ^ 2 +
    0.0012 * Real.sin (latDeg * Real.pi / 180) ^ 4

/-- Geographic-branch pixel area of a row (preprocess_population.py, lines
79-82): `(xres_deg * km_per_deg_lon) * (yres_deg * km_per_deg_lat)`. -/
noncomputable def rowAreaGeo (xres yres latDeg : ℝ) : ℝ :=
  (xres * kmPerDegLonRow latDeg) * (yres * kmPerDegLatRow latDeg)

/-- Modelled from the spec (section 4.2): "Row area (km²) = (pixel width in
degrees × km-per-degree-longitude) × (pixel height in degrees ×
km-per-degree-latitude)" with km-per-degree-longitude = 111.320·cos(lat) and
km-per-degree-latitude = 111.132 − 0.559·sin²(lat) + 0.0012·sin⁴(lat),
latitude in radians.  Stated independently of the code to compare both. -/
noncomputable def rowAreaSpec (xres yres latDeg : ℝ) : ℝ :=
  (xres * (111.320 * Real.cos (latDeg * Real.pi / 180))) *
    (yres * (111.132 - 0.559 * Real.sin (latDeg * Real.pi / 180) ^ 2 +
      0.0012 * Real.sin (latDeg * Real.pi / 180) ^ 4))

/-- The full PixelAreaGrid of the geographic branch: the latitude of row `r`'s
pixel center comes from the transform (`xy(transform, r, 0, offset=center)`,
giving `f + e * (r + 0.5)`), and the row area is broadcast across every
column `c`. -/
noncomputable def pixelAreaGeoGrid (xres yres e f : ℝ) (r _c : ℕ) : ℝ :=
  rowAreaGeo xres yres (f + e * ((r : ℝ) + 1 / 2))

/- ------------------------------------------------------------------ -/
/- Concrete instances used by witnesses and counterexamples.           -/
/- ------------------------------------------------------------------ -/

/-- A global 1-degree grid: the geometry of a 180×360 world raster. -/
def gGlobal : GridGeom := ⟨1, -1, -180, 90, 180, 360⟩

/-- A 2×2 one-degree corner grid. -/
def gTiny : GridGeom := ⟨1, -1, -180, 90, 2, 2⟩

/-- Stand-in for `math.cos(math.radians(lat))` at the equator samples used in
the concrete runs below, where the exact cosine is 1. -/
def cosOne : ℚ → ℚ := fun _ => 1

/-- Stand-in for `math.cos(math.radians(lat))` evaluated at latitude 200,
where the exact cosine is negative (cos 200° ≈ -0.94). -/
def cosNeg : ℚ → ℚ := fun _ => -47 / 50

/-- Stand-in for `math.cos(math.radians(lat))` at an exact pole, where the
exact cosine is 0. -/
def cosZero : ℚ → ℚ := fun _ => 0

/-- A raster holding 1 person in every pixel. -/
def gridOne : ℤ × ℤ → PFloat := fun _ => PFloat.finite 1

/-- A raster with a nan cell at pixel (0, 0) and 1 elsewhere. -/
def gridNan : ℤ × ℤ → PFloat := fun rc =>
  if rc = ((0 : ℤ), (0 : ℤ)) then PFloat.nan else PFloat.finite 1

/-- A degenerate distance function making every candidate pixel covered. -/
def distZero : ℚ × ℚ → ℚ × ℚ → ℚ := fun _ _ => 0

/-- A 4×4 one-degree grid centered on the equator: latitudes 2 down to -2,
longitudes -2 to 2. -/
def gEq : GridGeom := ⟨1, -1, -2, 2, 4, 4⟩

/-- Rational population raster holding 500 people in pixel (1, 1) of `gEq`
and nothing elsewhere. -/
def qGridDiag : ℤ × ℤ → ℚ := fun rc => if rc = ((1 : ℤ), (1 : ℤ)) then 500 else 0

/-- `qGridDiag` as a float raster. -/
def gridDiag : ℤ × ℤ → PFloat := fun rc => PFloat.finite (qGridDiag rc)

/-- Rational surrogate of the great-circle distance, agreeing with geopy's
`great_circle` on every comparison made in the `gEq` run from the sample
(1.5, -1.5): the pixel center one degree south and one degree east (the
diagonal neighbour) is about 157 km away (geopy gives 157.2), every other
pixel center of that 2×2 box is at most about 111.2 km away (geopy gives 0,
111.15 and 111.19), so against the 120 km radius the surrogate and the real
distance keep and drop exactly the same pixels. -/
def distDiag : ℚ × ℚ → ℚ × ℚ → ℚ := fun p q =>
  if q.1 = p.1 - 1 ∧ q.2 = p.2 + 1 then 157 else 1112 / 10

/- ------------------------------------------------------------------ -/
/- Helper lemmas.                                                      -/
/- ------------------------------------------------------------------ -/

theorem padd_nan_left (x : PFloat) : padd PFloat.nan x = PFloat.nan := by
  cases x <;> rfl

theorem padd_nan_right (x : PFloat) : padd x PFloat.nan = PFloat.nan := by
  cases x <;> rfl

theorem padd_finite (a b : ℚ) :
    padd (PFloat.finite a) (PFloat.finite b) = PFloat.finite (a + b) := rfl

theorem pmul_finite (a b : ℚ) :
    pmul (PFloat.finite a) (PFloat.finite b) = PFloat.finite (a * b) := rfl

theorem zeroNan_idem (x : PFloat) : zeroNan (zeroNan x) = zeroNan x := by
  cases x <;> rfl

theorem pyTrunc_mono {q r : ℚ} (h : q ≤ r) : pyTrunc q ≤ pyTrunc r := by
  unfold pyTrunc
  split_ifs with h1 h2 h2
  · exact Int.floor_le_floor h
  · exact absurd (h1.trans h) h2
  · have hq : q ≤ ((0 : ℤ) : ℚ) := by
      push_cast
      linarith [not_le.mp h1]
    have hr : ((0 : ℤ) : ℚ) ≤ r := by
      push_cast
      exact h2
    exact le_trans (Int.ceil_le.mpr hq) (Int.le_floor.mpr hr)
  · exact Int.ceil_le_ceil h

theorem floor_eval (q : ℚ) (n : ℤ) (h1 : (n : ℚ) ≤ q) (h2 : q < n + 1) :
    ⌊q⌋ = n :=
  Int.floor_eq_iff.mpr ⟨h1, by exact_mod_cast h2⟩

theorem pyTrunc_eval_nonneg (q : ℚ) (n : ℤ) (h0 : 0 ≤ q) (h1 : (n : ℚ) ≤ q)
    (h2 : q < n + 1) : pyTrunc q = n := by
  unfold pyTrunc
  rw [if_pos h0]
  exact floor_eval q n h1 h2

theorem pyTrunc_eval_neg (q : ℚ) (n : ℤ) (h0 : q < 0) (h1 : (n : ℚ) - 1 < q)
    (h2 : q ≤ n) : pyTrunc q = n := by
  unfold pyTrunc
  rw [if_neg (not_le.mpr h0)]
  exact Int.ceil_eq_iff.mpr ⟨by exact_mod_cast h1, h2⟩

theorem pyRound_eval (q : ℚ) (m n : ℤ) (hm1 : (m : ℚ) ≤ q) (hm2 : q < m + 1)
    (hne : q - m ≠ 1 / 2) (hn1 : (n : ℚ) ≤ q + 1 / 2)
    (hn2 : q + 1 / 2 < n + 1) : pyRound q = n := by
  have hf : ⌊q⌋ = m := floor_eval q m hm1 hm2
  unfold pyRound
  rw [Int.fract, hf, if_neg (by exact_mod_cast hne), round_eq]
  exact floor_eval (q + 1 / 2) n hn1 hn2

theorem sum_lift_list (l : List ℚ) :
    (l.map PFloat.finite).sum = PFloat.finite l.sum := by
  induction l with
  | nil => rfl
  | cons a t ih =>
      simp only [List.map_cons, List.sum_cons, ih]
      exact padd_finite a t.sum

theorem sum_lift_finset (S : Finset (ℤ × ℤ)) (f : ℤ × ℤ → ℚ) :
    (S.sum fun rc => PFloat.finite (f rc)) = PFloat.finite (S.sum f) := by
  refine Finset.induction_on S rfl ?_
  intro a s ha ih
  rw [Finset.sum_insert ha, Finset.sum_insert ha, ih]
  exact padd_finite (f a) (s.sum f)

theorem sum_nan_of_mem (S : Finset (ℤ × ℤ)) (grid : ℤ × ℤ → PFloat)
    (rc : ℤ × ℤ) (h : rc ∈ S) (hn : grid rc = PFloat.nan) :
    S.sum grid = PFloat.nan := by
  rw [← Finset.add_sum_erase S grid h, hn]
  exact padd_nan_left _

theorem flatten_liftGrid (g : List (List ℚ)) :
    (liftGrid g).flatten = g.flatten.map PFloat.finite := by
  induction g with
  | nil => rfl
  | cons r t ih =>
      show liftRow r ++ (liftGrid t).flatten = (r ++ t.flatten).map PFloat.finite
      rw [ih, List.map_append]
      rfl

theorem popCounts_lift (dq : List (List ℚ)) (aq : List ℚ) :
    popCountsPerKm2 (liftGrid dq) (liftRow aq) = liftGrid (qPopCounts dq aq) := by
  induction dq generalizing aq with
  | nil => cases aq <;> rfl
  | cons r t ih =>
      cases aq with
      | nil => rfl
      | cons a as =>
          show (liftRow r).map (fun x => pmul x (PFloat.finite a)) ::
              popCountsPerKm2 (liftGrid t) (liftRow as)
            = liftRow (r.map (fun x => x * a)) :: liftGrid (qPopCounts t as)
          rw [ih as]
          congr 1
          rw [liftRow, liftRow, List.map_map, List.map_map]
          exact List.map_congr_left fun x _ => pmul_finite x a

theorem scale_liftGrid (g : List (List ℚ)) (s : ℚ) :
    (liftGrid g).map (fun row => row.map (fun x => pmul x (PFloat.finite s)))
      = liftGrid (g.map (fun row => row.map (fun x => x * s))) := by
  rw [liftGrid, liftGrid, List.map_map, List.map_map]
  refine List.map_congr_left ?_
  intro row _
  show (liftRow row).map (fun x => pmul x (PFloat.finite s))
    = liftRow (row.map (fun x => x * s))
  rw [liftRow, liftRow, List.map_map, List.map_map]
  exact List.map_congr_left fun x _ => pmul_finite x s

theorem qsum_map_mul (l : List ℚ) (s : ℚ) :
    (l.map (fun x => x * s)).sum = l.sum * s := by
  induction l with
  | nil => simp
  | cons a t ih => simp [ih, add_mul]

theorem flatten_map_map (g : List (List ℚ)) (f : ℚ → ℚ) :
    (g.map (fun row => row.map f)).flatten = g.flatten.map f := by
  induction g with
  | nil => rfl
  | cons r t ih => simp only [List.map_cons, List.flatten_cons, List.map_append, ih]

theorem zipWith_replicate_same {α β γ : Type} (f : α → β → γ) (n : ℕ) (a : α) (b : β) :
    List.zipWith f (List.replicate n a) (List.replicate n b) = List.replicate n (f a b) := by
  induction n with
  | zero => rfl
  | succ k ih => simp [List.replicate, ih]

theorem qsum_replicate (n : ℕ) (q : ℚ) : (List.replicate n q).sum = n * q := by
  induction n with
  | zero => simp
  | succ k ih =>
      simp [List.replicate, ih]
      ring

theorem qsum_flatten (g : List (List ℚ)) : g.flatten.sum = (g.map List.sum).sum := by
  induction g with
  | nil => rfl
  | cons r t ih => simp [ih]

theorem pdiv_finite (t r : ℚ) :
    pdiv (PFloat.finite t) (PFloat.finite r)
      = if r = 0 then Except.error zeroDivMsg
        else Except.ok (PFloat.finite (t / r)) := rfl

theorem pdiv_finite_nan (t : ℚ) :
    pdiv (PFloat.finite t) PFloat.nan = Except.ok PFloat.nan := rfl

theorem pdiv_finite_inf (t : ℚ) :
    pdiv (PFloat.finite t) PFloat.inf = Except.ok (PFloat.finite 0) := rfl

theorem pdiv_finite_ninf (t : ℚ) :
    pdiv (PFloat.finite t) PFloat.ninf = Except.ok (PFloat.finite 0) := rfl

theorem convert_per_km2_ok (density : List (List PFloat)) (area : List PFloat)
    (target : ℚ) (s : PFloat)
    (hdiv : pdiv (PFloat.finite target) (popCountsPerKm2 density area).flatten.sum
      = Except.ok s) :
    convert_density_to_count density area "per_km2" target
      = Except.ok ⟨(popCountsPerKm2 density area).map (fun row =>
            row.map (fun x => pmul x s)),
          (popCountsPerKm2 density area).flatten.sum, s,
          ((popCountsPerKm2 density area).map (fun row =>
            row.map (fun x => pmul x s))).flatten.sum⟩ := by
  unfold convert_density_to_count
  rw [if_pos rfl]
  unfold normalizeCounts
  rw [hdiv]

theorem convert_lift_counts_sum (dq : List (List ℚ)) (aq : List ℚ) (target : ℚ)
    (hraw : qRawTotal dq aq ≠ 0) :
    (liftGrid ((qPopCounts dq aq).map (fun row =>
        row.map (fun x => x * (target / qRawTotal dq aq))))).flatten.sum
      = PFloat.finite target := by
  rw [flatten_liftGrid, sum_lift_list, flatten_map_map, qsum_map_mul,
    ← qRawTotal, mul_comm]
  rw [div_mul_cancel₀ target hraw]

theorem convert_lift_eval (dq : List (List ℚ)) (aq : List ℚ) (target : ℚ)
    (hraw : qRawTotal dq aq ≠ 0) :
    convert_density_to_count (liftGrid dq) (liftRow aq) "per_km2" target
      = Except.ok ⟨liftGrid ((qPopCounts dq aq).map (fun row =>
            row.map (fun x => x * (target / qRawTotal dq aq)))),
          PFloat.finite (qRawTotal dq aq),
          PFloat.finite (target / qRawTotal dq aq),
          PFloat.finite target⟩ := by
  have hsum : (popCountsPerKm2 (liftGrid dq) (liftRow aq)).flatten.sum
      = PFloat.finite (qRawTotal dq aq) := by
    rw [popCounts_lift, flatten_liftGrid, sum_lift_list, qRawTotal]
  have hdiv : pdiv (PFloat.finite target)
      (popCountsPerKm2 (liftGrid dq) (liftRow aq)).flatten.sum
      = Except.ok (PFloat.finite (target / qRawTotal dq aq)) := by
    rw [hsum, pdiv_finite, if_neg hraw]
  rw [convert_per_km2_ok (liftGrid dq) (liftRow aq) target _ hdiv]
  congr 1
  have hcounts : (popCountsPerKm2 (liftGrid dq) (liftRow aq)).map
        (fun row => row.map (fun x => pmul x (PFloat.finite (target / qRawTotal dq aq))))
      = liftGrid ((qPopCounts dq aq).map (fun row =>
          row.map (fun x => x * (target / qRawTotal dq aq)))) := by
    rw [popCounts_lift, scale_liftGrid]
  rw [hcounts, hsum, convert_lift_counts_sum dq aq target hraw]

theorem pyTrunc_zero : pyTrunc 0 = 0 := by
  unfold pyTrunc
  rw [if_pos le_rfl]
  exact Int.floor_zero

theorem coverage_fold (dist : ℚ × ℚ → ℚ × ℚ → ℚ) (cosFn : ℚ → ℚ) (g : GridGeom)
    (radius : ℚ) (ha : g.a ≠ 0) (he : g.e ≠ 0) :
    ∀ (track : List (ℚ × ℚ)) (acc : Finset (ℤ × ℤ)),
      (∀ p ∈ track, kmLonQ cosFn p.1 * g.a ≠ 0) →
      ∃ S, track.foldlM (fun acc p =>
          (sampleCoveredE dist cosFn g radius p).map (fun s => acc ∪ s)) acc
        = Except.ok S
      ∧ ∀ rc, rc ∈ S ↔ rc ∈ acc
          ∨ ∃ p ∈ track, rc ∈ sampleCovered dist cosFn g radius p := by
  intro track
  induction track with
  | nil =>
      intro acc _
      exact ⟨acc, rfl, by simp⟩
  | cons p ps ih =>
      intro acc hk
      have hsp : sampleCoveredE dist cosFn g radius p
          = Except.ok (sampleCovered dist cosFn g radius p) := by
        unfold sampleCoveredE
        rw [if_neg (by push_neg; exact ⟨ha, he⟩),
          if_neg (hk p (List.mem_cons_self p ps))]
      obtain ⟨S, hS, hmem⟩ := ih (acc ∪ sampleCovered dist cosFn g radius p)
        (fun q hq => hk q (List.mem_cons_of_mem p hq))
      refine ⟨S, ?_, ?_⟩
      · have hstep : (p :: ps).foldlM (fun acc p =>
            (sampleCoveredE dist cosFn g radius p).map (fun s => acc ∪ s)) acc
            = ps.foldlM (fun acc p =>
                (sampleCoveredE dist cosFn g radius p).map (fun s => acc ∪ s))
                (acc ∪ sampleCovered dist cosFn g radius p) := by
          rw [List.foldlM_cons, hsp]
          rfl
        exact hstep.trans hS
      · intro rc
        rw [hmem rc]
        simp only [Finset.mem_union, List.mem_cons]
        constructor
        · rintro (⟨h | h⟩ | ⟨q, hq, hmem2⟩)
          · exact Or.inl h
          · exact Or.inr ⟨p, Or.inl rfl, h⟩
          · exact Or.inr ⟨q, Or.inr hq, hmem2⟩
        · rintro (h | ⟨q, hq | hq, hmem2⟩)
          · exact Or.inl (Or.inl h)
          · exact Or.inl (Or.inr (hq ▸ hmem2))
          · exact Or.inr ⟨q, hq, hmem2⟩

theorem score_of_sets (dist : ℚ × ℚ → ℚ × ℚ → ℚ) (cosFn : ℚ → ℚ) (g : GridGeom)
    (grid : ℤ × ℤ → PFloat) (radius : ℚ) (track : List (ℚ × ℚ))
    (S : Finset (ℤ × ℤ)) (q : ℚ)
    (hS : coverageSetsE dist cosFn g radius track = Except.ok S)
    (hq : S.sum grid = PFloat.finite q) :
    get_coverage_score dist cosFn g grid radius track = Except.ok (pyTrunc q) := by
  unfold get_coverage_score coverageTotalE
  rw [hS]
  have hmap : (Except.ok S : Except String (Finset (ℤ × ℤ))).map
      (fun S => S.sum grid) = Except.ok (S.sum grid) := rfl
  rw [hmap, hq]

/- ------------------------------------------------------------------ -/
/- Claim theorems.                                                     -/
/- ------------------------------------------------------------------ -/

/-- C9: in the point query the column-radius division is guarded — whenever
`km_per_deg_lon = 111.32 * cos(radians lat)` is not positive (in particular
whenever it is zero), `get_population_estimate` takes the unguarded branch
and uses `col_radius = 1`, so no division by that factor happens. -/
theorem col_radius_guarded (cosFn : ℚ → ℚ) (lat radius a : ℚ)
    (h : kmLonQ cosFn lat ≤ 0) : colRadiusPx cosFn lat radius a = 1 := by
  unfold colRadiusPx
  rw [if_neg (not_lt.mpr h)]

theorem col_radius_guarded_witness :
    kmLonQ cosZero 90 ≤ 0 ∧ colRadiusPx cosZero 90 1 1 = 1 :=
  ⟨by norm_num [kmLonQ, cosZero],
   col_radius_guarded cosZero 90 1 1 (by norm_num [kmLonQ, cosZero])⟩

/-- C2: the fail-soft claim fails on the program.  For latitude 200 on the
global one-degree raster the point query computes `center_row = -110` and
`row_stop = min(180, -108) = -108`; the numpy slice `[0:-108, 179:182]` then
wraps the negative stop to `180 - 108 = 72` and selects rows 0..71 of the
array, so with one person per pixel the returned estimate is
72 rows × 3 columns = 216, not 0.  This evaluates the query at that failing
input under the numpy slice semantics. -/
theorem estimate_wraps_out_of_extent :
    get_population_estimate cosNeg gGlobal gridOne 200 0 1 = 216
    ∧ (216 : ℤ) ≠ 0 := by
  refine ⟨?_, by norm_num⟩
  unfold get_population_estimate
  rw [if_neg (by norm_num [gGlobal])]
  have hrow : pyTrunc (geoToRow gGlobal 200) = -110 := by
    rw [show geoToRow gGlobal 200 = -110 by norm_num [geoToRow, gGlobal]]
    exact pyTrunc_eval_neg (-110) (-110) (by norm_num) (by norm_num) (by norm_num)
  have hcol : pyTrunc (geoToCol gGlobal 0) = 180 := by
    rw [show geoToCol gGlobal 0 = 180 by norm_num [geoToCol, gGlobal]]
    exact pyTrunc_eval_nonneg 180 180 (by norm_num) (by norm_num) (by norm_num)
  have hrad : rowRadiusPx 1 gGlobal.e = 1 := by
    unfold rowRadiusPx
    rw [show (1 : ℚ) / ((111 : ℚ) * |gGlobal.e|) = 1 / 111 by norm_num [gGlobal]]
    rw [pyRound_eval (1 / 111) 0 0 (by norm_num) (by norm_num) (by norm_num)
      (by norm_num) (by norm_num)]
    decide
  have hcr : colRadiusPx cosNeg 200 1 gGlobal.a = 1 := by
    unfold colRadiusPx
    rw [if_neg (by norm_num [kmLonQ, cosNeg])]
  rw [hrow, hcol, hrad, hcr]
  rw [show (sliceRows gGlobal (-110) 1 ×ˢ sliceCols gGlobal 180 1)
      = Finset.Ico (0 : ℤ) 72 ×ˢ Finset.Ico (179 : ℤ) 182 from by decide]
  have hsum : ((Finset.Ico (0 : ℤ) 72 ×ˢ Finset.Ico (179 : ℤ) 182).sum
      fun rc => zeroNan (gridOne rc)) = PFloat.finite 216 := by
    show ((Finset.Ico (0 : ℤ) 72 ×ˢ Finset.Ico (179 : ℤ) 182).sum
      fun _rc => PFloat.finite ((fun _rc2 : ℤ × ℤ => (1 : ℚ)) _rc)) = PFloat.finite 216
    rw [sum_lift_finset (Finset.Ico (0 : ℤ) 72 ×ˢ Finset.Ico (179 : ℤ) 182)
      (fun _ => (1 : ℚ))]
    congr 1
    rw [Finset.sum_const,
      show (Finset.Ico (0 : ℤ) 72 ×ˢ Finset.Ico (179 : ℤ) 182).card = 216 from by decide]
    norm_num
  rw [hsum]
  exact pyTrunc_eval_nonneg 216 216 (by norm_num) (by norm_num) (by norm_num)

/-- C1: for every rational density grid and pixel-area grid whose raw count
total is nonzero (and, being rational, finite), the conversion succeeds and
the sum over all cells of the produced CountRaster equals the target
population within 1e-6 relative tolerance — in this exact-arithmetic model
the normalised sum is exactly the target. -/
theorem convert_normalized_sum (dq : List (List ℚ)) (aq : List ℚ) (target : ℚ)
    (hraw : qRawTotal dq aq ≠ 0) :
    ∃ out s, convert_density_to_count (liftGrid dq) (liftRow aq) "per_km2" target
        = Except.ok out
      ∧ out.counts.flatten.sum = PFloat.finite s
      ∧ |s - target| ≤ 1 / 1000000 * |target| :=
  ⟨_, target, convert_lift_eval dq aq target hraw,
    convert_lift_counts_sum dq aq target hraw,
    by rw [sub_self, abs_zero]; positivity⟩

theorem convert_normalized_sum_witness :
    qRawTotal [[10]] [1] ≠ 0
    ∧ ∃ out s, convert_density_to_count (liftGrid [[10]]) (liftRow [1]) "per_km2" 5
        = Except.ok out
      ∧ out.counts.flatten.sum = PFloat.finite s
      ∧ |s - 5| ≤ 1 / 1000000 * |(5 : ℚ)| :=
  ⟨by norm_num [qRawTotal, qPopCounts],
   convert_normalized_sum [[10]] [1] 5 (by norm_num [qRawTotal, qPopCounts])⟩

/-- C4 counterexample: a one-pixel density grid holding float nan has a nan
raw total, yet `convert_density_to_count` does not raise — the nan scale
factor is applied and the all-nan scaled array is persisted (`Except.ok`),
refuting the claim that a non-finite raw total is fatal. -/
theorem convert_nan_raw_writes :
    convert_density_to_count [[PFloat.nan]] [PFloat.finite 1] "per_km2" 100
      = Except.ok ⟨[[PFloat.nan]], PFloat.nan, PFloat.nan, PFloat.nan⟩ := rfl

/-- C4 amended: in the per-km² branch the conversion raises (and therefore
persists nothing) exactly when the raw population total is the float zero —
Python's `ZeroDivisionError` from `target_pop / 0.0`; for a nan or infinite
raw total the division yields nan or 0.0 and the scaled array is silently
written. -/
theorem convert_error_iff_zero_raw (density : List (List PFloat))
    (area : List PFloat) (target : ℚ) :
    convert_density_to_count density area "per_km2" target = Except.error zeroDivMsg
      ↔ rawTotalP density area = PFloat.finite 0 := by
  unfold convert_density_to_count
  rw [if_pos rfl]
  unfold normalizeCounts rawTotalP
  cases h : (popCountsPerKm2 density area).flatten.sum with
  | finite q =>
      rw [pdiv_finite]
      by_cases hq : q = 0
      · subst hq
        rw [if_pos rfl]
        simp
      · rw [if_neg hq]
        simp [hq]
  | nan => rw [pdiv_finite_nan]; simp
  | inf => rw [pdiv_finite_inf]; simp
  | ninf => rw [pdiv_finite_ninf]; simp

/-- C8: the projected-CRS pixel area is the constant `|xres * yres|` in m²
converted to km², and on the concrete scenario — a uniform density 10 over a
10×10 grid with 2 km × 2 km pixels (area 4 km² each), no masking,
target 1600 — the conversion yields raw total 4000, scale factor 0.4 and an
adjusted CountRaster sum of 1600. -/
theorem convert_projected_scenario :
    (∀ x y : ℚ, pixelAreaProjQ x y = |x * y| / 1000000)
    ∧ ∃ out, convert_density_to_count (liftGrid (List.replicate 10 (List.replicate 10 10)))
        (liftRow (List.replicate 10 (pixelAreaProjQ 2000 2000))) "per_km2" 1600
        = Except.ok out
      ∧ out.total_pop_raw = PFloat.finite 4000
      ∧ out.scale_factor = PFloat.finite (2 / 5)
      ∧ out.counts.flatten.sum = PFloat.finite 1600 := by
  have hpc : qPopCounts (List.replicate 10 (List.replicate 10 10))
      (List.replicate 10 (pixelAreaProjQ 2000 2000))
      = List.replicate 10 (List.replicate 10 40) := by
    rw [show pixelAreaProjQ 2000 2000 = 4 by norm_num [pixelAreaProjQ]]
    rw [qPopCounts, zipWith_replicate_same, List.map_replicate]
    norm_num
  have hraw : qRawTotal (List.replicate 10 (List.replicate 10 10))
      (List.replicate 10 (pixelAreaProjQ 2000 2000)) = 4000 := by
    rw [qRawTotal, hpc, qsum_flatten, List.map_replicate, qsum_replicate,
      qsum_replicate]
    norm_num
  have hne : qRawTotal (List.replicate 10 (List.replicate 10 10))
      (List.replicate 10 (pixelAreaProjQ 2000 2000)) ≠ 0 := by
    rw [hraw]
    norm_num
  refine ⟨fun x y => by rw [pixelAreaProjQ, abs_mul], _,
    convert_lift_eval _ _ 1600 hne, ?_, ?_, ?_⟩
  · exact congrArg PFloat.finite hraw
  · exact congrArg PFloat.finite (by rw [hraw]; norm_num)
  · exact convert_lift_counts_sum _ _ 1600 hne

/-- C5: as long as no sample raises (invertible transform, nonzero column
divisor), the sweep produces a set whose members are exactly the pixels that
lie in some sample's clamped bounding box at great-circle distance at most
`radius_km` from that sample's center — a pixel hit by several samples
appears once — and the returned coverage score is the truncated integer sum
of the CountRaster over that final unique set. -/
theorem coverage_kept_iff (dist : ℚ × ℚ → ℚ × ℚ → ℚ) (cosFn : ℚ → ℚ)
    (g : GridGeom) (grid : ℤ × ℤ → PFloat) (radius : ℚ) (track : List (ℚ × ℚ))
    (ha : g.a ≠ 0) (he : g.e ≠ 0)
    (hk : ∀ p ∈ track, kmLonQ cosFn p.1 * g.a ≠ 0) :
    ∃ S, coverageSetsE dist cosFn g radius track = Except.ok S
      ∧ (∀ r c, ((r, c) ∈ S
          ↔ ∃ p ∈ track, (r, c) ∈ sampleBox cosFn g radius p
              ∧ dist p (pixCenter g (r, c)) ≤ radius))
      ∧ ∀ q, S.sum grid = PFloat.finite q →
          get_coverage_score dist cosFn g grid radius track = Except.ok (pyTrunc q) := by
  obtain ⟨S, hS, hmem⟩ := coverage_fold dist cosFn g radius ha he track ∅ hk
  refine ⟨S, hS, ?_, ?_⟩
  · intro r c
    rw [hmem (r, c)]
    simp only [Finset.not_mem_empty, false_or, sampleCovered, Finset.mem_filter]
  · intro q hq
    exact score_of_sets dist cosFn g grid radius track S q hS hq

theorem coverage_kept_iff_witness :
    (gTiny.a ≠ 0 ∧ gTiny.e ≠ 0
      ∧ ∀ p ∈ [((89.5 : ℚ), (-179.5 : ℚ))], kmLonQ cosOne p.1 * gTiny.a ≠ 0)
    ∧ ∃ S, coverageSetsE distZero cosOne gTiny 1 [((89.5 : ℚ), (-179.5 : ℚ))] = Except.ok S
      ∧ (∀ r c, ((r, c) ∈ S
          ↔ ∃ p ∈ [((89.5 : ℚ), (-179.5 : ℚ))], (r, c) ∈ sampleBox cosOne gTiny 1 p
              ∧ distZero p (pixCenter gTiny (r, c)) ≤ 1))
      ∧ ∀ q, S.sum gridOne = PFloat.finite q →
          get_coverage_score distZero cosOne gTiny gridOne 1 [((89.5 : ℚ), (-179.5 : ℚ))]
            = Except.ok (pyTrunc q) := by
  have h1 : gTiny.a ≠ 0 := by norm_num [gTiny]
  have h2 : gTiny.e ≠ 0 := by norm_num [gTiny]
  have h3 : ∀ p ∈ [((89.5 : ℚ), (-179.5 : ℚ))], kmLonQ cosOne p.1 * gTiny.a ≠ 0 := by
    intro p hp
    rw [List.mem_singleton] at hp
    subst hp
    norm_num [kmLonQ, cosOne, gTiny]
  exact ⟨⟨h1, h2, h3⟩, coverage_kept_iff distZero cosOne gTiny gridOne 1 _ h1 h2 h3⟩

/-- C3 counterexample: a one-sample track on a 4×4 equatorial grid with a
120 km footprint.  The sample's bounding box holds four pixels; the only
populated pixel (500 people, the diagonal neighbour about 157 km away) passes
the box test of the point query but fails the great-circle test of the sweep,
so `coverageScore(track, r) = 0 < 500 = estimate(p, r)` for the very point p
the track consists of — refuting the claimed inequality. -/
theorem coverage_below_estimate :
    ((1.5 : ℚ), (-1.5 : ℚ)) ∈ [((1.5 : ℚ), (-1.5 : ℚ))]
    ∧ get_coverage_score distDiag cosOne gEq gridDiag 120 [((1.5 : ℚ), (-1.5 : ℚ))]
        = Except.ok 0
    ∧ get_population_estimate cosOne gEq gridDiag 1.5 (-1.5) 120 = 500
    ∧ ¬ ((500 : ℤ) ≤ 0) := by
  have hrowP : pyTrunc (geoToRow gEq ((1.5 : ℚ), (-1.5 : ℚ)).1) = 0 := by
    rw [show geoToRow gEq ((1.5 : ℚ), (-1.5 : ℚ)).1 = 1 / 2 by
      norm_num [geoToRow, gEq]]
    exact pyTrunc_eval_nonneg (1 / 2) 0 (by norm_num) (by norm_num) (by norm_num)
  have hcolP : pyTrunc (geoToCol gEq ((1.5 : ℚ), (-1.5 : ℚ)).2) = 0 := by
    rw [show geoToCol gEq ((1.5 : ℚ), (-1.5 : ℚ)).2 = 1 / 2 by
      norm_num [geoToCol, gEq]]
    exact pyTrunc_eval_nonneg (1 / 2) 0 (by norm_num) (by norm_num) (by norm_num)
  have hrr : rowRadiusPx 120 gEq.e = 1 := by
    unfold rowRadiusPx
    rw [show (120 : ℚ) / ((111 : ℚ) * |gEq.e|) = 40 / 37 by norm_num [gEq]]
    rw [pyRound_eval (40 / 37) 1 1 (by norm_num) (by norm_num) (by norm_num)
      (by norm_num) (by norm_num)]
    decide
  have hccP : max 1 (pyRound (120 / (kmLonQ cosOne ((1.5 : ℚ), (-1.5 : ℚ)).1 * gEq.a))) = 1 := by
    rw [show (120 : ℚ) / (kmLonQ cosOne ((1.5 : ℚ), (-1.5 : ℚ)).1 * gEq.a) = 3000 / 2783 by
      norm_num [kmLonQ, cosOne, gEq]]
    rw [pyRound_eval (3000 / 2783) 1 1 (by norm_num) (by norm_num) (by norm_num)
      (by norm_num) (by norm_num)]
    decide
  have hbox : sampleBox cosOne gEq 120 ((1.5 : ℚ), (-1.5 : ℚ))
      = ({((0 : ℤ), (0 : ℤ)), (0, 1), (1, 0), (1, 1)} : Finset (ℤ × ℤ)) := by
    unfold sampleBox
    rw [hrowP, hcolP, hrr, hccP]
    decide
  have hfil : sampleCovered distDiag cosOne gEq 120 ((1.5 : ℚ), (-1.5 : ℚ))
      = ({((0 : ℤ), (0 : ℤ)), (0, 1), (1, 0)} : Finset (ℤ × ℤ)) := by
    unfold sampleCovered
    rw [hbox]
    rw [Finset.filter_insert, Finset.filter_insert, Finset.filter_insert,
      Finset.filter_singleton]
    rw [if_pos (by norm_num [distDiag, pixCenter, gEq]),
      if_pos (by norm_num [distDiag, pixCenter, gEq]),
      if_pos (by norm_num [distDiag, pixCenter, gEq]),
      if_neg (by norm_num [distDiag, pixCenter, gEq])]
    decide
  have hsp : sampleCoveredE distDiag cosOne gEq 120 ((1.5 : ℚ), (-1.5 : ℚ))
      = Except.ok ({((0 : ℤ), (0 : ℤ)), (0, 1), (1, 0)} : Finset (ℤ × ℤ)) := by
    unfold sampleCoveredE
    rw [if_neg (by norm_num [gEq]), if_neg (by norm_num [kmLonQ, cosOne, gEq]), hfil]
  have hSet : coverageSetsE distDiag cosOne gEq 120 [((1.5 : ℚ), (-1.5 : ℚ))]
      = Except.ok ({((0 : ℤ), (0 : ℤ)), (0, 1), (1, 0)} : Finset (ℤ × ℤ)) := by
    unfold coverageSetsE
    rw [List.foldlM_cons, hsp]
    show Except.ok (∅ ∪ ({((0 : ℤ), (0 : ℤ)), (0, 1), (1, 0)} : Finset (ℤ × ℤ))) = _
    rw [Finset.empty_union]
  have hsum : (({((0 : ℤ), (0 : ℤ)), (0, 1), (1, 0)} : Finset (ℤ × ℤ)).sum gridDiag)
      = PFloat.finite 0 := by
    unfold gridDiag
    rw [sum_lift_finset]
    rw [show (({((0 : ℤ), (0 : ℤ)), (0, 1), (1, 0)} : Finset (ℤ × ℤ)).sum qGridDiag) = 0 by
      rw [Finset.sum_insert (by decide), Finset.sum_insert (by decide),
        Finset.sum_singleton]
      norm_num [qGridDiag]]
  refine ⟨List.mem_singleton_self _, ?_, ?_, by norm_num⟩
  · have := score_of_sets distDiag cosOne gEq gridDiag 120
      [((1.5 : ℚ), (-1.5 : ℚ))] _ 0 hSet hsum
    rw [this, pyTrunc_zero]
  · unfold get_population_estimate
    rw [if_neg (by norm_num [gEq])]
    have hrow2 : pyTrunc (geoToRow gEq (1.5 : ℚ)) = 0 := by
      rw [show geoToRow gEq (1.5 : ℚ) = 1 / 2 by norm_num [geoToRow, gEq]]
      exact pyTrunc_eval_nonneg (1 / 2) 0 (by norm_num) (by norm_num) (by norm_num)
    have hcol2 : pyTrunc (geoToCol gEq (-1.5 : ℚ)) = 0 := by
      rw [show geoToCol gEq (-1.5 : ℚ) = 1 / 2 by norm_num [geoToCol, gEq]]
      exact pyTrunc_eval_nonneg (1 / 2) 0 (by norm_num) (by norm_num) (by norm_num)
    have hcr : colRadiusPx cosOne 1.5 120 gEq.a = 1 := by
      unfold colRadiusPx
      rw [if_pos (by norm_num [kmLonQ, cosOne])]
      rw [show (120 : ℚ) / (kmLonQ cosOne 1.5 * gEq.a) = 3000 / 2783 by
        norm_num [kmLonQ, cosOne, gEq]]
      rw [pyRound_eval (3000 / 2783) 1 1 (by norm_num) (by norm_num) (by norm_num)
        (by norm_num) (by norm_num)]
      decide
    rw [hrow2, hcol2, hrr, hcr]
    rw [show (sliceRows gEq 0 1 ×ˢ sliceCols gEq 0 1)
        = ({((0 : ℤ), (0 : ℤ)), (0, 1), (1, 0), (1, 1)} : Finset (ℤ × ℤ)) from by decide]
    have hz : (({((0 : ℤ), (0 : ℤ)), (0, 1), (1, 0), (1, 1)} : Finset (ℤ × ℤ)).sum
        fun rc => zeroNan (gridDiag rc))
        = PFloat.finite 500 := by
      show (({((0 : ℤ), (0 : ℤ)), (0, 1), (1, 0), (1, 1)} : Finset (ℤ × ℤ)).sum
        fun rc => PFloat.finite (qGridDiag rc)) = PFloat.finite 500
      rw [sum_lift_finset]
      rw [show (({((0 : ℤ), (0 : ℤ)), (0, 1), (1, 0), (1, 1)} : Finset (ℤ × ℤ)).sum qGridDiag) = 500 by
        rw [Finset.sum_insert (by decide), Finset.sum_insert (by decide),
          Finset.sum_insert (by decide), Finset.sum_singleton]
        norm_num [qGridDiag]]
    rw [hz]
    exact pyTrunc_eval_nonneg 500 500 (by norm_num) (by norm_num) (by norm_num)

/-- C3 amended: the sweep's covered set for a full track contains the covered
set of any single sample drawn from it, so for a nonnegative CountRaster the
full-sweep coverage score is at least the single-sample coverage score —
`coverageScore(track, r) ≥ coverageScore([p], r)` for every p in track.  (The
original comparison against the point-query `estimate(p, r)` fails because
the point query sums the whole bounding box while the sweep keeps only the
inscribed great-circle disc.) -/
theorem coverage_superset_single (dist : ℚ × ℚ → ℚ × ℚ → ℚ) (cosFn : ℚ → ℚ)
    (g : GridGeom) (gq : ℤ × ℤ → ℚ) (radius : ℚ) (track : List (ℚ × ℚ))
    (p : ℚ × ℚ) (hp : p ∈ track) (ha : g.a ≠ 0) (he : g.e ≠ 0)
    (hk : ∀ q ∈ track, kmLonQ cosFn q.1 * g.a ≠ 0)
    (hpos : ∀ rc, 0 ≤ gq rc) :
    ∃ s t, get_coverage_score dist cosFn g (fun rc => PFloat.finite (gq rc)) radius [p]
        = Except.ok s
      ∧ get_coverage_score dist cosFn g (fun rc => PFloat.finite (gq rc)) radius track
        = Except.ok t
      ∧ s ≤ t := by
  obtain ⟨S1, hS1, hm1⟩ := coverage_fold dist cosFn g radius ha he [p] ∅
    (fun q hq => (List.mem_singleton.mp hq) ▸ hk p hp)
  obtain ⟨S, hS, hm⟩ := coverage_fold dist cosFn g radius ha he track ∅ hk
  have hsub : S1 ⊆ S := by
    intro rc hrc
    rw [hm1 rc] at hrc
    rw [hm rc]
    rcases hrc with h | ⟨q, hq, hmem⟩
    · exact absurd h (Finset.not_mem_empty rc)
    · exact Or.inr ⟨p, hp, (List.mem_singleton.mp hq) ▸ hmem⟩
  refine ⟨pyTrunc (S1.sum gq), pyTrunc (S.sum gq),
    score_of_sets dist cosFn g _ radius [p] S1 (S1.sum gq) hS1 (sum_lift_finset S1 gq),
    score_of_sets dist cosFn g _ radius track S (S.sum gq) hS (sum_lift_finset S gq),
    pyTrunc_mono (Finset.sum_le_sum_of_subset_of_nonneg hsub fun i _ _ => hpos i)⟩

theorem coverage_superset_single_witness :
    (((89.5 : ℚ), (-179.5 : ℚ)) ∈ [((89.5 : ℚ), (-179.5 : ℚ))]
      ∧ gTiny.a ≠ 0 ∧ gTiny.e ≠ 0
      ∧ (∀ q ∈ [((89.5 : ℚ), (-179.5 : ℚ))], kmLonQ cosOne q.1 * gTiny.a ≠ 0)
      ∧ ∀ _rc : ℤ × ℤ, (0 : ℚ) ≤ 1)
    ∧ ∃ s t, get_coverage_score distZero cosOne gTiny (fun _rc => PFloat.finite 1) 1
        [((89.5 : ℚ), (-179.5 : ℚ))] = Except.ok s
      ∧ get_coverage_score distZero cosOne gTiny (fun _rc => PFloat.finite 1) 1
        [((89.5 : ℚ), (-179.5 : ℚ))] = Except.ok t
      ∧ s ≤ t := by
  have h1 : gTiny.a ≠ 0 := by norm_num [gTiny]
  have h2 : gTiny.e ≠ 0 := by norm_num [gTiny]
  have h3 : ∀ q ∈ [((89.5 : ℚ), (-179.5 : ℚ))], kmLonQ cosOne q.1 * gTiny.a ≠ 0 := by
    intro q hq
    rw [List.mem_singleton] at hq
    subst hq
    norm_num [kmLonQ, cosOne, gTiny]
  exact ⟨⟨List.mem_singleton_self _, h1, h2, h3, fun _ => by norm_num⟩,
    coverage_superset_single distZero cosOne gTiny (fun _ => 1) 1 _ _
      (List.mem_singleton_self _) h1 h2 h3 (fun _ => by norm_num)⟩

/-- C10: the two query paths treat nan cells of the CountRaster differently —
the point query sums its index box with the nan-ignoring sum, so replacing
every nan cell by 0 leaves every estimate unchanged, whereas the sweep sums
its covered set with the plain float sum, so one nan cell inside the covered
set makes the whole coverage total nan. -/
theorem nan_handling_asymmetry :
    (∀ (cosFn : ℚ → ℚ) (g : GridGeom) (grid : ℤ × ℤ → PFloat) (lat lon radius : ℚ),
      get_population_estimate cosFn g grid lat lon radius
        = get_population_estimate cosFn g (fun rc => zeroNan (grid rc)) lat lon radius)
    ∧ ∀ (dist : ℚ × ℚ → ℚ × ℚ → ℚ) (cosFn : ℚ → ℚ) (g : GridGeom)
        (grid : ℤ × ℤ → PFloat) (radius : ℚ) (track : List (ℚ × ℚ))
        (S : Finset (ℤ × ℤ)) (rc : ℤ × ℤ),
      coverageSetsE dist cosFn g radius track = Except.ok S → rc ∈ S →
      grid rc = PFloat.nan →
      coverageTotalE dist cosFn g grid radius track = Except.ok PFloat.nan := by
  constructor
  · intro cosFn g grid lat lon radius
    unfold get_population_estimate
    split_ifs with hg
    · rfl
    · have hsum : ((sliceRows g (pyTrunc (geoToRow g lat)) (rowRadiusPx radius g.e) ×ˢ
          sliceCols g (pyTrunc (geoToCol g lon)) (colRadiusPx cosFn lat radius g.a)).sum
          fun rc => zeroNan (zeroNan (grid rc)))
        = ((sliceRows g (pyTrunc (geoToRow g lat)) (rowRadiusPx radius g.e) ×ˢ
          sliceCols g (pyTrunc (geoToCol g lon)) (colRadiusPx cosFn lat radius g.a)).sum
          fun rc => zeroNan (grid rc)) :=
        Finset.sum_congr rfl fun x _ => zeroNan_idem (grid x)
      rw [hsum]
  · intro dist cosFn g grid radius track S rc hS hmem hnan
    unfold coverageTotalE
    rw [hS]
    have hmap : (Except.ok S : Except String (Finset (ℤ × ℤ))).map
        (fun S => S.sum grid) = Except.ok (S.sum grid) := rfl
    rw [hmap, sum_nan_of_mem S grid rc hmem hnan]

theorem nan_handling_asymmetry_witness :
    (coverageSetsE distZero cosOne gTiny 1 [((89.5 : ℚ), (-179.5 : ℚ))]
        = Except.ok ({((0 : ℤ), (0 : ℤ)), (0, 1), (1, 0), (1, 1)} : Finset (ℤ × ℤ))
      ∧ ((0 : ℤ), (0 : ℤ)) ∈ ({((0 : ℤ), (0 : ℤ)), (0, 1), (1, 0), (1, 1)} : Finset (ℤ × ℤ))
      ∧ gridNan ((0 : ℤ), (0 : ℤ)) = PFloat.nan)
    ∧ get_population_estimate cosOne gTiny gridNan 89.5 (-179.5) 1
        = get_population_estimate cosOne gTiny (fun rc => zeroNan (gridNan rc)) 89.5 (-179.5) 1
    ∧ coverageTotalE distZero cosOne gTiny gridNan 1 [((89.5 : ℚ), (-179.5 : ℚ))]
        = Except.ok PFloat.nan := by
  have hrowP : pyTrunc (geoToRow gTiny ((89.5 : ℚ), (-179.5 : ℚ)).1) = 0 := by
    rw [show geoToRow gTiny ((89.5 : ℚ), (-179.5 : ℚ)).1 = 1 / 2 by
      norm_num [geoToRow, gTiny]]
    exact pyTrunc_eval_nonneg (1 / 2) 0 (by norm_num) (by norm_num) (by norm_num)
  have hcolP : pyTrunc (geoToCol gTiny ((89.5 : ℚ), (-179.5 : ℚ)).2) = 0 := by
    rw [show geoToCol gTiny ((89.5 : ℚ), (-179.5 : ℚ)).2 = 1 / 2 by
      norm_num [geoToCol, gTiny]]
    exact pyTrunc_eval_nonneg (1 / 2) 0 (by norm_num) (by norm_num) (by norm_num)
  have hrr : rowRadiusPx 1 gTiny.e = 1 := by
    unfold rowRadiusPx
    rw [show (1 : ℚ) / ((111 : ℚ) * |gTiny.e|) = 1 / 111 by norm_num [gTiny]]
    rw [pyRound_eval (1 / 111) 0 0 (by norm_num) (by norm_num) (by norm_num)
      (by norm_num) (by norm_num)]
    decide
  have hccP : max 1 (pyRound (1 / (kmLonQ cosOne ((89.5 : ℚ), (-179.5 : ℚ)).1 * gTiny.a))) = 1 := by
    rw [show (1 : ℚ) / (kmLonQ cosOne ((89.5 : ℚ), (-179.5 : ℚ)).1 * gTiny.a) = 25 / 2783 by
      norm_num [kmLonQ, cosOne, gTiny]]
    rw [pyRound_eval (25 / 2783) 0 0 (by norm_num) (by norm_num) (by norm_num)
      (by norm_num) (by norm_num)]
    decide
  have hbox : sampleBox cosOne gTiny 1 ((89.5 : ℚ), (-179.5 : ℚ))
      = ({((0 : ℤ), (0 : ℤ)), (0, 1), (1, 0), (1, 1)} : Finset (ℤ × ℤ)) := by
    unfold sampleBox
    rw [hrowP, hcolP, hrr, hccP]
    decide
  have hfil : sampleCovered distZero cosOne gTiny 1 ((89.5 : ℚ), (-179.5 : ℚ))
      = ({((0 : ℤ), (0 : ℤ)), (0, 1), (1, 0), (1, 1)} : Finset (ℤ × ℤ)) := by
    unfold sampleCovered
    rw [hbox]
    rw [Finset.filter_insert, Finset.filter_insert, Finset.filter_insert,
      Finset.filter_singleton]
    rw [if_pos (by norm_num [distZero]), if_pos (by norm_num [distZero]),
      if_pos (by norm_num [distZero]), if_pos (by norm_num [distZero])]
  have hsp : sampleCoveredE distZero cosOne gTiny 1 ((89.5 : ℚ), (-179.5 : ℚ))
      = Except.ok ({((0 : ℤ), (0 : ℤ)), (0, 1), (1, 0), (1, 1)} : Finset (ℤ × ℤ)) := by
    unfold sampleCoveredE
    rw [if_neg (by norm_num [gTiny]), if_neg (by norm_num [kmLonQ, cosOne, gTiny]), hfil]
  have hSet : coverageSetsE distZero cosOne gTiny 1 [((89.5 : ℚ), (-179.5 : ℚ))]
      = Except.ok ({((0 : ℤ), (0 : ℤ)), (0, 1), (1, 0), (1, 1)} : Finset (ℤ × ℤ)) := by
    unfold coverageSetsE
    rw [List.foldlM_cons, hsp]
    show Except.ok (∅ ∪ ({((0 : ℤ), (0 : ℤ)), (0, 1), (1, 0), (1, 1)} : Finset (ℤ × ℤ))) = _
    rw [Finset.empty_union]
  exact ⟨⟨hSet, by decide, rfl⟩,
    nan_handling_asymmetry.1 cosOne gTiny gridNan 89.5 (-179.5) 1,
    nan_handling_asymmetry.2 distZero cosOne gTiny gridNan 1
      [((89.5 : ℚ), (-179.5 : ℚ))] _ ((0 : ℤ), (0 : ℤ)) hSet (by decide) rfl⟩

theorem kmLat_poly_mono (s1 s2 : ℝ) (h1 : 0 ≤ s1) (h12 : s1 ≤ s2) (h2 : s2 ≤ 1) :
    111.132 - 0.559 * s2 ^ 2 + 0.0012 * s2 ^ 4
      ≤ 111.132 - 0.559 * s1 ^ 2 + 0.0012 * s1 ^ 4 := by
  have hs1 : s1 ^ 2 ≤ 1 := by nlinarith
  have hs2 : s2 ^ 2 ≤ 1 := by nlinarith
  have hA : s1 ^ 2 ≤ s2 ^ 2 := by nlinarith
  nlinarith [mul_nonneg (sub_nonneg.mpr hA) (sub_nonneg.mpr hs1),
    mul_nonneg (sub_nonneg.mpr hA) (sub_nonneg.mpr hs2)]

theorem kmLat_poly_pos (s : ℝ) (h1 : 0 ≤ s) (h2 : s ≤ 1) :
    0 < 111.132 - 0.559 * s ^ 2 + 0.0012 * s ^ 4 := by
  nlinarith [sq_nonneg s, sq_nonneg (s ^ 2)]

theorem rowAreaGeo_neg (x y d : ℝ) : rowAreaGeo x y (-d) = rowAreaGeo x y d := by
  unfold rowAreaGeo kmPerDegLonRow kmPerDegLatRow
  rw [show -d * Real.pi / 180 = -(d * Real.pi / 180) by ring, Real.cos_neg,
    Real.sin_neg]
  ring

theorem rowAreaGeo_strictAnti (x y : ℝ) (hx : 0 < x) (hy : 0 < y)
    (d1 d2 : ℝ) (h0 : 0 ≤ d1) (h12 : d1 < d2) (h2 : d2 ≤ 90) :
    rowAreaGeo x y d2 < rowAreaGeo x y d1 := by
  have hpi := Real.pi_pos
  have ht0 : 0 ≤ d1 * Real.pi / 180 := by positivity
  have ht12 : d1 * Real.pi / 180 < d2 * Real.pi / 180 := by
    have := mul_lt_mul_of_pos_right h12 hpi
    linarith
  have ht2 : d2 * Real.pi / 180 ≤ Real.pi / 2 := by
    have : d2 * Real.pi ≤ 90 * Real.pi := mul_le_mul_of_nonneg_right h2 hpi.le
    linarith
  have hcos : Real.cos (d2 * Real.pi / 180) < Real.cos (d1 * Real.pi / 180) :=
    Real.cos_lt_cos_of_nonneg_of_le_pi ht0 (by linarith) ht12
  have hcos1 : 0 < Real.cos (d1 * Real.pi / 180) :=
    Real.cos_pos_of_mem_Ioo ⟨by linarith, by linarith⟩
  have hcos2 : 0 ≤ Real.cos (d2 * Real.pi / 180) :=
    Real.cos_nonneg_of_mem_Icc ⟨by linarith, ht2⟩
  have hsin : Real.sin (d1 * Real.pi / 180) < Real.sin (d2 * Real.pi / 180) :=
    Real.strictMonoOn_sin ⟨by linarith, by linarith⟩ ⟨by linarith, ht2⟩ ht12
  have hsin1 : 0 ≤ Real.sin (d1 * Real.pi / 180) :=
    Real.sin_nonneg_of_nonneg_of_le_pi ht0 (by linarith)
  have hsin2 : Real.sin (d2 * Real.pi / 180) ≤ 1 := Real.sin_le_one _
  have hM : 111.132 - 0.559 * Real.sin (d2 * Real.pi / 180) ^ 2
        + 0.0012 * Real.sin (d2 * Real.pi / 180) ^ 4
      ≤ 111.132 - 0.559 * Real.sin (d1 * Real.pi / 180) ^ 2
        + 0.0012 * Real.sin (d1 * Real.pi / 180) ^ 4 :=
    kmLat_poly_mono _ _ hsin1 hsin.le hsin2
  have hM2 : 0 < 111.132 - 0.559 * Real.sin (d2 * Real.pi / 180) ^ 2
      + 0.0012 * Real.sin (d2 * Real.pi / 180) ^ 4 :=
    kmLat_poly_pos _ (hsin1.trans hsin.le) hsin2
  have key : Real.cos (d2 * Real.pi / 180) *
        (111.132 - 0.559 * Real.sin (d2 * Real.pi / 180) ^ 2
          + 0.0012 * Real.sin (d2 * Real.pi / 180) ^ 4)
      < Real.cos (d1 * Real.pi / 180) *
        (111.132 - 0.559 * Real.sin (d1 * Real.pi / 180) ^ 2
          + 0.0012 * Real.sin (d1 * Real.pi / 180) ^ 4) := by
    have ha : Real.cos (d2 * Real.pi / 180) *
          (111.132 - 0.559 * Real.sin (d2 * Real.pi / 180) ^ 2
            + 0.0012 * Real.sin (d2 * Real.pi / 180) ^ 4)
        ≤ Real.cos (d2 * Real.pi / 180) *
          (111.132 - 0.559 * Real.sin (d1 * Real.pi / 180) ^ 2
            + 0.0012 * Real.sin (d1 * Real.pi / 180) ^ 4) :=
      mul_le_mul_of_nonneg_left hM hcos2
    have hb : Real.cos (d2 * Real.pi / 180) *
          (111.132 - 0.559 * Real.sin (d1 * Real.pi / 180) ^ 2
            + 0.0012 * Real.sin (d1 * Real.pi / 180) ^ 4)
        < Real.cos (d1 * Real.pi / 180) *
          (111.132 - 0.559 * Real.sin (d1 * Real.pi / 180) ^ 2
            + 0.0012 * Real.sin (d1 * Real.pi / 180) ^ 4) :=
      mul_lt_mul_of_pos_right hcos (lt_of_lt_of_le hM2 hM)
    linarith
  unfold rowAreaGeo kmPerDegLonRow kmPerDegLatRow
  calc (x * (111.320 * Real.cos (d2 * Real.pi / 180))) *
        (y * (111.132 - 0.559 * Real.sin (d2 * Real.pi / 180) ^ 2
          + 0.0012 * Real.sin (d2 * Real.pi / 180) ^ 4))
      = (x * y * 111.320) * (Real.cos (d2 * Real.pi / 180) *
          (111.132 - 0.559 * Real.sin (d2 * Real.pi / 180) ^ 2
            + 0.0012 * Real.sin (d2 * Real.pi / 180) ^ 4)) := by ring
    _ < (x * y * 111.320) * (Real.cos (d1 * Real.pi / 180) *
          (111.132 - 0.559 * Real.sin (d1 * Real.pi / 180) ^ 2
            + 0.0012 * Real.sin (d1 * Real.pi / 180) ^ 4)) := by
        exact mul_lt_mul_of_pos_left key (by positivity)
    _ = (x * (111.320 * Real.cos (d1 * Real.pi / 180))) *
        (y * (111.132 - 0.559 * Real.sin (d1 * Real.pi / 180) ^ 2
          + 0.0012 * Real.sin (d1 * Real.pi / 180) ^ 4)) := by ring

/-- C6: in the geographic branch the per-row pixel area strictly decreases
moving from an equatorial row toward a polar row: for positive resolutions,
whenever one row center's absolute latitude is strictly larger (up to 90°)
its area is strictly smaller — which also gives monotone non-increase in
absolute latitude, areas at opposite latitudes being equal by evenness. -/
theorem pixel_area_decreases_toward_poles (xres yres lat1 lat2 : ℝ)
    (hx : 0 < xres) (hy : 0 < yres) (h12 : |lat1| < |lat2|) (h2 : |lat2| ≤ 90) :
    rowAreaGeo xres yres lat2 < rowAreaGeo xres yres lat1 := by
  have habs : ∀ d : ℝ, rowAreaGeo xres yres d = rowAreaGeo xres yres |d| := by
    intro d
    rcases abs_cases d with ⟨h, _⟩ | ⟨h, _⟩
    · rw [h]
    · rw [h, rowAreaGeo_neg]
  rw [habs lat1, habs lat2]
  exact rowAreaGeo_strictAnti xres yres hx hy |lat1| |lat2| (abs_nonneg lat1) h12 h2

theorem pixel_area_decreases_toward_poles_witness :
    ((0 : ℝ) < 1 ∧ |(0 : ℝ)| < |(90 : ℝ)| ∧ |(90 : ℝ)| ≤ 90)
    ∧ rowAreaGeo 1 1 90 < rowAreaGeo 1 1 0 :=
  ⟨⟨by norm_num, by norm_num, by norm_num⟩,
   pixel_area_decreases_toward_poles 1 1 0 90 (by norm_num) (by norm_num)
     (by norm_num) (by norm_num)⟩

/-- C7: the geographic-branch row area computed by the code equals the
spec's formula `(xres × 111.320·cos lat) × (yres × (111.132 − 0.559·sin²lat
+ 0.0012·sin⁴lat))` with the latitude in radians; the PixelAreaGrid
broadcasts each row's area across all columns; and the longitude factor of a
row at latitude 60° is exactly half that of a row at latitude 0°. -/
theorem row_area_formula :
    (∀ xres yres latDeg : ℝ, rowAreaGeo xres yres latDeg = rowAreaSpec xres yres latDeg)
    ∧ (∀ xres yres e f : ℝ, ∀ r c c' : ℕ,
        pixelAreaGeoGrid xres yres e f r c = pixelAreaGeoGrid xres yres e f r c')
    ∧ kmPerDegLonRow 60 / kmPerDegLonRow 0 = 1 / 2 := by
  refine ⟨fun x y d => rfl, fun x y e f r c c' => rfl, ?_⟩
  unfold kmPerDegLonRow
  rw [show (60 : ℝ) * Real.pi / 180 = Real.pi / 3 by ring]
  rw [show (0 : ℝ) * Real.pi / 180 = 0 by ring]
  rw [Real.cos_pi_div_three, Real.cos_zero]
  norm_num

end LEO
